import Mathlib

/-!
Shallow embedding of `src/src/transformer.py`, a decoder-only transformer
(multi-head scaled dot-product attention, padding/causal mask construction,
sinusoidal positional embedding, teacher-forced forward pass and the
autoregressive generation loop), together with theorems settling the frozen
claims about it.

Modelling conventions:
* a float tensor of shape `[d0, d1, ...]` is a total index function
  `Nat → Nat → ... → ℝ`; the shape is carried as explicit `Nat` parameters
  where an operation needs it (summation ranges, reshape group sizes);
* `torch` reshape / permute / repeat are modelled by their row-major index
  semantics, each as its own small definition;
* float arithmetic is modelled over `ℝ` (`torch.softmax` via `Real.exp`,
  `math.sqrt` via `Real.sqrt`, `10000 ** e` via `Real.rpow`);
* `raise ValueError` is modelled with `Except String`;
* `nn.Dropout` is modelled as the identity (inference semantics);
* `torch.multinomial` is modelled by an explicit sampler argument: theorems
  constrain it only through the probability vector it is given.
-/

namespace TransformerPy

/-- Real tensor of rank 3 (`[batch, seq, feature]`-like), as an index function. -/
abbrev Tensor3 := Nat → Nat → Nat → ℝ

/-- Real tensor of rank 4, as an index function. -/
abbrev Tensor4 := Nat → Nat → Nat → Nat → ℝ

/-- Row-major semantics of `x.reshape(batch, L, H, sub)` applied to a
`[batch, L, H*sub]` tensor: the last axis is split into `(H, sub)`. -/
def reshapeSplitLast {α : Type} (sub : Nat) (x : Nat → Nat → Nat → α) :
    Nat → Nat → Nat → Nat → α :=
  fun b l h t => x b l (h * sub + t)

/-- Row-major semantics of `x.reshape(B, H, L, sub)` applied to a
`[B*H, L, sub]` tensor: the first axis is split into `(B, H)`. -/
def reshapeSplitFirst {α : Type} (H : Nat) (x : Nat → Nat → Nat → α) :
    Nat → Nat → Nat → Nat → α :=
  fun b h l t => x (b * H + h) l t

/-- Row-major semantics of `x.reshape(B*H, L, sub)` applied to a
`[B, H, L, sub]` tensor: the first two axes are merged. -/
def reshapeMergeFirst {α : Type} (H : Nat) (x : Nat → Nat → Nat → Nat → α) :
    Nat → Nat → Nat → α :=
  fun k l t => x (k / H) (k % H) l t

/-- Row-major semantics of `x.reshape(B, L, H*sub)` applied to a
`[B, L, H, sub]` tensor: the last two axes are merged. -/
def reshapeMergeLast {α : Type} (sub : Nat) (x : Nat → Nat → Nat → Nat → α) :
    Nat → Nat → Nat → α :=
  fun b l d => x b l (d / sub) (d % sub)

/-- `x.permute(0, 2, 1, 3)`: swap the middle two axes of a rank-4 tensor. -/
def permute0213 {α : Type} (x : Nat → Nat → Nat → Nat → α) :
    Nat → Nat → Nat → Nat → α :=
  fun b h l t => x b l h t

/-- `x.permute(1, 2, 0)` on a rank-3 tensor. -/
def permute120 {α : Type} (x : Nat → Nat → Nat → α) : Nat → Nat → Nat → α :=
  fun a c k => x k a c

/-- `x.permute(2, 3, 0, 1)` on a rank-4 tensor. -/
def permute2301 {α : Type} (x : Nat → Nat → Nat → Nat → α) :
    Nat → Nat → Nat → Nat → α :=
  fun b h l1 l2 => x l1 l2 b h

/-- Row-major semantics of `y.reshape(L1, L2, B, H)` applied to a
`[L1, L2, B*H]` tensor: the last axis is split into `(B, H)`. -/
def reshapeSplitLast3 {α : Type} (H : Nat) (x : Nat → Nat → Nat → α) :
    Nat → Nat → Nat → Nat → α :=
  fun l1 l2 b h => x l1 l2 (b * H + h)

/-- `mask.repeat(head_num, 1, 1)` on a `[B, Lq, Lk]` tensor: `torch` `repeat`
tiles the whole tensor along axis 0, so slice `k` of the result is slice
`k % B` of the input (`transformer.py` line 65). -/
def repeatBatch {α : Type} (B : Nat) (mask : Nat → Nat → Nat → α) :
    Nat → Nat → Nat → α :=
  fun k i j => mask (k % B) i j

/-- `MultiHeadAttention._reshape_to_batches` (`transformer.py` lines 101-108):
`x.reshape(batch, L, head_num, sub).permute(0, 2, 1, 3)
  .reshape(batch*head_num, L, sub)` with `sub = in_features // head_num`.
Folded slice `k` holds example `k / head_num`, head `k % head_num`
(example-major head folding). -/
def MultiHeadAttention.reshape_to_batches {α : Type} (head_num in_features : Nat)
    (x : Nat → Nat → Nat → α) : Nat → Nat → Nat → α :=
  reshapeMergeFirst head_num (permute0213 (reshapeSplitLast (in_features / head_num) x))

/-- `MultiHeadAttention._reshape_from_batches` (`transformer.py` lines 110-118):
`x.reshape(batch, head_num, L, sub).permute(0, 2, 1, 3)
  .reshape(batch, L, head_num*sub)` where `sub` is the input's feature size. -/
def MultiHeadAttention.reshape_from_batches {α : Type} (head_num sub : Nat)
    (x : Nat → Nat → Nat → α) : Nat → Nat → Nat → α :=
  reshapeMergeLast sub (permute0213 (reshapeSplitFirst head_num x))

/-- `MultiHeadAttention._reshape_alignments` (`transformer.py` lines 93-99):
`alignments.permute(1, 2, 0).reshape(L1, L2, batch, head_num).permute(2, 3, 0, 1)`;
it reads folded slice `b * head_num + h` as example `b`, head `h`. -/
def MultiHeadAttention.reshape_alignments {α : Type} (head_num : Nat)
    (x : Nat → Nat → Nat → α) : Nat → Nat → Nat → Nat → α :=
  permute2301 (reshapeSplitLast3 head_num (permute120 x))

/-- `MultiHeadAttention.create_causal_mask` (`transformer.py` lines 73-91),
value part: `torch.tril(torch.ones(L, L)).view(1, L, L).repeat(B, 1, 1)`,
i.e. entry `(b, i, j)` is `1` iff `j ≤ i`.  `batch_size` and `seq_len` fix
only the materialized shape, so the entries are modelled as a total
function; the reference-vs-shape argument validation concerns only the
device/shape plumbing, which has no content in this embedding. -/
def MultiHeadAttention.create_causal_mask : Tensor3 :=
  fun _b i j => if j ≤ i then (1 : ℝ) else 0

/-- `create_self_attention_mask` (`transformer.py` lines 219-241):
`r = arange(L).repeat(B, 1)`, `attention_mask = (r < sequence_length.unsqueeze(1)).float()`,
`attention_mask.unsqueeze_(1)` (shape `[B, 1, L]`), then multiplied by its
`transpose(1, 2)` (shape `[B, L, 1]`), broadcasting to `[B, L, L]` with entry
`(b, i, j) = v[b, j] * v[b, i]`; when `causal`, further multiplied by the
lower-triangular causal mask. -/
def create_self_attention_mask (sequence_length : Nat → Nat) (causal : Bool) :
    Tensor3 :=
  let attention_mask : Nat → Nat → ℝ :=
    fun b p => if p < sequence_length b then 1 else 0
  let m : Tensor3 := fun b i j => attention_mask b j * attention_mask b i
  match causal with
  | true => fun b i j => m b i j * MultiHeadAttention.create_causal_mask b i j
  | false => m

/-- `MultiHeadAttention.__init__` (`transformer.py` lines 35-55), guard part:
`if in_features % head_num != 0: raise ValueError(...)`; on success the
constructor records the configuration (the four `nn.Linear` submodules carry
no construction-time content beyond their shapes). -/
def MultiHeadAttention.init (in_features head_num : Nat) :
    Except String (Nat × Nat) :=
  if in_features % head_num ≠ 0 then
    Except.error "in_features should be divisible by head_num"
  else Except.ok (in_features, head_num)

/-- Concrete two-example mask (batch size 2) whose two examples differ:
example 0 allows everything, example 1 forbids everything. -/
def maskPair : Tensor3 := fun b _ _ => if b = 0 then 1 else 0

/-- Sentinel written as `-1e9` in the source. -/
def negBillion : ℝ := -1000000000

/-- `scores = query.matmul(key.transpose(-2, -1)) / math.sqrt(dk)`
(`transformer.py` lines 12-13); `dk` is the feature size of the queries. -/
noncomputable def ScaledDotProductAttention.scores (dk : Nat)
    (query key : Tensor3) : Tensor3 :=
  fun b i j => (∑ t ∈ Finset.range dk, query b i t * key b j t) / Real.sqrt dk

/-- `x.masked_fill(mask == 0, c)` on a rank-3 tensor: entries where the mask
is zero are replaced by `c`. -/
noncomputable def masked_fill (mask : Tensor3) (c : ℝ) (x : Tensor3) : Tensor3 :=
  fun b i j => if mask b i j = 0 then c else x b i j

/-- `torch.softmax(s, dim=-1)` where the last (key) axis has length `Lk`. -/
noncomputable def softmaxLast (Lk : Nat) (s : Tensor3) : Tensor3 :=
  fun b i j => Real.exp (s b i j) / ∑ t ∈ Finset.range Lk, Real.exp (s b i t)

/-- `ScaledDotProductAttention.forward` (`transformer.py` lines 11-29):
scaled dot-product scores, sentinel fill of masked entries before the
softmax, softmax over the key axis, then a second `masked_fill` zeroing the
masked entries after the softmax; returns
`(attention.matmul(value), attention)`. -/
noncomputable def ScaledDotProductAttention.forward (Lk dk : Nat)
    (query key value : Tensor3) (mask : Option Tensor3) : Tensor3 × Tensor3 :=
  let scores := ScaledDotProductAttention.scores dk query key
  let scores := match mask with
    | none => scores
    | some m => masked_fill m negBillion scores
  let attention := softmaxLast Lk scores
  let attention := match mask with
    | none => attention
    | some m => masked_fill m 0 attention
  (fun b i t => ∑ j ∈ Finset.range Lk, attention b i j * value b j t, attention)

/-- Weights of one `nn.Linear(in_features, out_features)`: `weight` has shape
`[out, in]` and `y = x Wᵀ + b`.  A bias-free linear map is the special case
`bias = fun o => 0`. -/
structure LinearParams where
  weight : Nat → Nat → ℝ
  bias : Nat → ℝ

/-- Application of `nn.Linear` to one feature vector. -/
noncomputable def LinearParams.apply (p : LinearParams) (in_features : Nat)
    (x : Nat → ℝ) : Nat → ℝ :=
  fun o => (∑ t ∈ Finset.range in_features, p.weight o t * x t) + p.bias o

/-- `nn.Linear` applied along the feature axis of a `[batch, seq, feature]`
tensor. -/
noncomputable def mapLinear (p : LinearParams) (in_features : Nat)
    (x : Tensor3) : Tensor3 :=
  fun b i => p.apply in_features (x b i)

/-- The four projections owned by `MultiHeadAttention`. -/
structure MultiHeadAttentionParams where
  linear_q : LinearParams
  linear_k : LinearParams
  linear_v : LinearParams
  linear_o : LinearParams

/-- `MultiHeadAttention.forward` (`transformer.py` lines 57-71): project
q/k/v, fold heads into the batch axis, tile the mask `head_num` times along
the batch axis, run `ScaledDotProductAttention` once over the folded batch,
unfold and apply the output projection; alignments are reshaped back to
`[batch, head, Lq, Lk]`.  `B` is the mask's batch size and `Lk` the key
sequence length. -/
noncomputable def MultiHeadAttention.forward (in_features head_num B Lk : Nat)
    (p : MultiHeadAttentionParams) (q k v : Tensor3) (mask : Option Tensor3) :
    Tensor3 × Tensor4 :=
  let q := mapLinear p.linear_q in_features q
  let k := mapLinear p.linear_k in_features k
  let v := mapLinear p.linear_v in_features v
  let q := MultiHeadAttention.reshape_to_batches head_num in_features q
  let k := MultiHeadAttention.reshape_to_batches head_num in_features k
  let v := MultiHeadAttention.reshape_to_batches head_num in_features v
  let mask := mask.map (repeatBatch B)
  let ya := ScaledDotProductAttention.forward Lk (in_features / head_num) q k v mask
  let y := MultiHeadAttention.reshape_from_batches head_num
    (in_features / head_num) ya.1
  let y := mapLinear p.linear_o in_features y
  (y, MultiHeadAttention.reshape_alignments head_num ya.2)

/-- Affine parameters of one `nn.LayerNorm(dmodel)`. -/
structure LayerNormParams where
  gamma : Nat → ℝ
  beta : Nat → ℝ

/-- `nn.LayerNorm(dmodel)` with its default `eps = 1e-5`: normalize over the
last axis using the biased variance, then scale and shift. -/
noncomputable def LayerNormParams.apply (p : LayerNormParams) (D : Nat)
    (x : Nat → ℝ) : Nat → ℝ :=
  let mu := (∑ t ∈ Finset.range D, x t) / D
  let var := (∑ t ∈ Finset.range D, (x t - mu) ^ 2) / D
  fun o => (x o - mu) / Real.sqrt (var + 1e-5) * p.gamma o + p.beta o

/-- `nn.Dropout` in inference semantics: the identity map.  The source never
switches the module out of its construction-time mode; the deterministic
claims (C4, C5, C10) are about the inference-time behaviour, so dropout is
embedded as the identity. -/
def dropoutEval (x : ℝ) : ℝ := x

/-- `nn.ReLU`. -/
noncomputable def relu (x : ℝ) : ℝ := max x 0

/-- The two affine maps of the feedforward sublayer. -/
structure FeedForwardParams where
  lin1 : LinearParams
  lin2 : LinearParams

/-- `nn.Sequential(Linear(dmodel + n_cond, dim_feedforward), ReLU, Dropout,
Linear(dim_feedforward, dmodel))` (`transformer.py` lines 139-144). -/
noncomputable def FeedForwardParams.apply (p : FeedForwardParams)
    (in_dim ff_dim : Nat) (x : Nat → ℝ) : Nat → ℝ :=
  p.lin2.apply ff_dim (fun h => dropoutEval (relu (p.lin1.apply in_dim x h)))

/-- Parameters of one `TransformerDecoderLayer`. -/
structure TransformerDecoderLayerParams where
  decoder_attention : MultiHeadAttentionParams
  feedforward : FeedForwardParams
  norm1 : LayerNormParams
  norm2 : LayerNormParams

/-- `TransformerDecoderLayer.forward` (`transformer.py` lines 151-180):
self-attention with the causal/padding mask, residual + dropout + norm, an
optional conditioning channel (`log_p`, one scalar per example, replicated
across sequence positions) concatenated on the feature axis, feedforward,
residual + dropout + norm.  Returns the new hidden state and the layers's
self-attention alignments. -/
noncomputable def TransformerDecoderLayer.forward
    (dmodel head_num dim_feedforward B L : Nat)
    (p : TransformerDecoderLayerParams) (x : Tensor3)
    (target_attention_mask : Tensor3) (log_p : Option (Nat → ℝ)) :
    Tensor3 × Tensor4 :=
  let sa := MultiHeadAttention.forward dmodel head_num B L p.decoder_attention
    x x x (some target_attention_mask)
  let x1 : Tensor3 := fun b i d => x b i d + dropoutEval (sa.1 b i d)
  let x2 : Tensor3 := fun b i => p.norm1.apply dmodel (x1 b i)
  let ff_inps : Tensor3 := match log_p with
    | none => x2
    | some lp => fun b i d => if d < dmodel then x2 b i d else lp b
  let n_cond : Nat := match log_p with
    | none => 0
    | some _ => 1
  let sc : Tensor3 := fun b i =>
    p.feedforward.apply (dmodel + n_cond) dim_feedforward (ff_inps b i)
  let x3 : Tensor3 := fun b i d => x2 b i d + dropoutEval (sc b i d)
  let x4 : Tensor3 := fun b i => p.norm2.apply dmodel (x3 b i)
  (x4, sa.2)

/-- The position-by-feature matrix added by
`SinusoidalPositionalEmbedding.forward` (`transformer.py` lines 205-213),
built from the source ops: `freqs = arange(dmodel)`, the strided slices
`freqs[:, ::2]` (entries `2s`, width `⌈dmodel/2⌉`) and `freqs[:, 1::2]`
(entries `2s + 1`), each fed to `torch.sin` of
`positions / 10000 ** (slice / dmodel)`, then concatenated along the feature
axis.  Note both bands use `torch.sin`; no cosine appears in the source. -/
noncomputable def SinusoidalPositionalEmbedding.encodings (dmodel : Nat) :
    Nat → Nat → ℝ :=
  let freqs : Nat → ℝ := fun f => (f : ℝ)
  let sinBand : Nat → Nat → ℝ := fun p s =>
    Real.sin ((p : ℝ) / (10000 : ℝ) ^ (freqs (2 * s) / (dmodel : ℝ)))
  let cosBand : Nat → Nat → ℝ := fun p s =>
    Real.sin ((p : ℝ) / (10000 : ℝ) ^ (freqs (2 * s + 1) / (dmodel : ℝ)))
  fun p i =>
    if i < (dmodel + 1) / 2 then sinBand p i else cosBand p (i - (dmodel + 1) / 2)

/-- `SinusoidalPositionalEmbedding.forward` (`transformer.py` lines 190-216):
raises when the sequence length exceeds `num_positions`, otherwise adds the
deterministic encoding matrix, broadcast across the batch axis. -/
noncomputable def SinusoidalPositionalEmbedding.forward
    (dmodel num_positions L : Nat) (x : Tensor3) : Except String Tensor3 :=
  if L > num_positions then
    Except.error "sequence length exceeds the maximum position index"
  else
    Except.ok (fun b pos i =>
      x b pos i + SinusoidalPositionalEmbedding.encodings dmodel pos i)

/-- Modelled from the claim's words, for comparison only (not from the
source): the canonical alternating sine/cosine positional encoding, `sin` at
even feature indices and `cos` at odd ones, frequency `10000 ^ (-2⌊i/2⌋/dmodel)`. -/
noncomputable def canonicalSinusoidalEncoding (dmodel : Nat) : Nat → Nat → ℝ :=
  fun p i =>
    if i % 2 = 0 then Real.sin ((p : ℝ) / (10000 : ℝ) ^ ((i : ℝ) / (dmodel : ℝ)))
    else Real.cos ((p : ℝ) / (10000 : ℝ) ^ (((i : ℝ) - 1) / (dmodel : ℝ)))

/-- Construction-time configuration of `Transformer` (lines 274-310). -/
structure TransformerConfig where
  vocab_size : Nat
  dmodel : Nat
  nhead : Nat
  dim_feedforward : Nat
  num_positions : Nat

/-- Learned parameters of `Transformer`: the embedding table, the decoder
layers and the classifier head. -/
structure TransformerParams where
  embedding : Nat → Nat → ℝ
  decoder_layers : List TransformerDecoderLayerParams
  classifier : LinearParams

/-- The result bundle of `Transformer.forward` (lines 360-364). -/
structure ForwardOutput where
  logits : Tensor3
  decoder_alignments : List Tensor4
  target_embeddings : Tensor3

/-- `Transformer._decode` (`transformer.py` lines 312-329): thread the hidden
state through the decoder layers in order, reusing the same mask, collecting
each layer's alignments. -/
noncomputable def Transformer.decode (cfg : TransformerConfig) (B L : Nat)
    (layers : List TransformerDecoderLayerParams) (x : Tensor3)
    (target_attention_mask : Tensor3) (log_p : Option (Nat → ℝ)) :
    Tensor3 × List Tensor4 :=
  match layers with
  | [] => (x, [])
  | layer :: rest =>
      let step := TransformerDecoderLayer.forward cfg.dmodel cfg.nhead
        cfg.dim_feedforward B L layer x target_attention_mask log_p
      let next := Transformer.decode cfg B L rest step.1 target_attention_mask log_p
      (next.1, step.2 :: next.2)

/-- `Transformer._encode_output_ids` (`transformer.py` lines 331-335):
embedding lookup followed by the positional embedding.  `L` is the sequence
length of `output_ids`. -/
noncomputable def Transformer.encode_output_ids (cfg : TransformerConfig)
    (p : TransformerParams) (L : Nat) (output_ids : Nat → Nat → Nat) :
    Except String Tensor3 :=
  SinusoidalPositionalEmbedding.forward cfg.dmodel cfg.num_positions L
    (fun b pos i => p.embedding (output_ids b pos) i)

/-- `Transformer.forward` (`transformer.py` lines 337-364): encode the token
ids, build the causal+padding mask from `target_sequence_length`, run the
decoder stack, project to vocabulary logits. -/
noncomputable def Transformer.forward (cfg : TransformerConfig)
    (p : TransformerParams) (B L : Nat) (output_ids : Nat → Nat → Nat)
    (target_sequence_length : Nat → Nat) (log_p : Option (Nat → ℝ)) :
    Except String ForwardOutput :=
  match Transformer.encode_output_ids cfg p L output_ids with
  | Except.error e => Except.error e
  | Except.ok target_embeddings =>
      let decoder_mask := create_self_attention_mask target_sequence_length true
      let d := Transformer.decode cfg B L p.decoder_layers target_embeddings
        decoder_mask log_p
      Except.ok
        { logits := fun b i => p.classifier.apply cfg.dmodel (d.1 b i)
          decoder_alignments := d.2
          target_embeddings := target_embeddings }

/-- The logits one step of `Transformer.generate` (`transformer.py` lines
381-403) computes before forbidden-id filling and temperature scaling:
`target_sequence_length` filled with the current length `step`, full
embedding+mask+stack pass over the ids generated so far, classifier applied
to the last position (`decoded[:, -1, :]`, index `step - 1`). -/
noncomputable def Transformer.generateLogits (cfg : TransformerConfig)
    (p : TransformerParams) (B step : Nat) (log_p : Option (Nat → ℝ))
    (output_ids : Nat → Nat → Nat) : Except String (Nat → Nat → ℝ) :=
  match Transformer.encode_output_ids cfg p step output_ids with
  | Except.error e => Except.error e
  | Except.ok target_embeddings =>
      let decoder_mask := create_self_attention_mask (fun _ => step) true
      let d := Transformer.decode cfg B step p.decoder_layers target_embeddings
        decoder_mask log_p
      Except.ok (fun b => p.classifier.apply cfg.dmodel (d.1 b (step - 1)))

/-- Forbidden-id filling and temperature-scaled softmax of one generation
step (`transformer.py` lines 405-408): `last_logits[:, mask_id] = -1e9` for
each forbidden id, then `torch.softmax(last_logits / temperature, dim=1)`
over the vocabulary axis. -/
noncomputable def stepProbs (cfg : TransformerConfig) (temperature : ℝ)
    (mask_ids : List Nat) (lg : Nat → Nat → ℝ) : Nat → Nat → ℝ :=
  let masked : Nat → Nat → ℝ :=
    fun b o => if o ∈ mask_ids then negBillion else lg b o
  fun b o => Real.exp (masked b o / temperature)
    / ∑ t ∈ Finset.range cfg.vocab_size, Real.exp (masked b t / temperature)

/-- Abstraction of `torch.multinomial(probs, num_samples=1)`: given the step
index and the `[batch, vocab]` probability tensor, yields one chosen id per
example.  Theorems constrain it only through the probability tensor it is
given; any index the categorical draw can return corresponds to some such
function. -/
abbrev Sampler := Nat → (Nat → Nat → ℝ) → Nat → Nat

/-- One iteration of the generation loop (`transformer.py` lines 381-411):
compute the last-position logits, fill the forbidden ids, sample from the
temperature softmax, append the choice (`torch.cat([output_ids, choices],
dim=1)`). -/
noncomputable def Transformer.generateStep (cfg : TransformerConfig)
    (p : TransformerParams) (B : Nat) (temperature : ℝ) (mask_ids : List Nat)
    (log_p : Option (Nat → ℝ)) (sampler : Sampler) (step : Nat)
    (output_ids : Nat → Nat → Nat) : Except String (Nat → Nat → Nat) :=
  match Transformer.generateLogits cfg p B step log_p output_ids with
  | Except.error e => Except.error e
  | Except.ok lg =>
      Except.ok (fun b pos => if pos < step then output_ids b pos
        else sampler step (stepProbs cfg temperature mask_ids lg) b)

/-- The loop `for step in range(1, max_target_sequence_length)`: `n` is the
number of remaining iterations and `step` the current sequence length. -/
noncomputable def Transformer.generateSteps (cfg : TransformerConfig)
    (p : TransformerParams) (B : Nat) (temperature : ℝ) (mask_ids : List Nat)
    (log_p : Option (Nat → ℝ)) (sampler : Sampler) :
    Nat → Nat → (Nat → Nat → Nat) → Except String (Nat → Nat → Nat)
  | 0, _, output_ids => Except.ok output_ids
  | n + 1, step, output_ids =>
      match Transformer.generateStep cfg p B temperature mask_ids log_p sampler
          step output_ids with
      | Except.error e => Except.error e
      | Except.ok next =>
          Transformer.generateSteps cfg p B temperature mask_ids log_p sampler
            n (step + 1) next

/-- `Transformer.generate` (`transformer.py` lines 366-415): start from a
`[batch, 1]` tensor filled with `start_id` and run the loop up to length
`max_target_sequence_length`. -/
noncomputable def Transformer.generate (cfg : TransformerConfig)
    (p : TransformerParams) (batch_size max_target_sequence_length start_id : Nat)
    (temperature : ℝ) (mask_ids : List Nat) (log_p : Option (Nat → ℝ))
    (sampler : Sampler) : Except String (Nat → Nat → Nat) :=
  Transformer.generateSteps cfg p batch_size temperature mask_ids log_p sampler
    (max_target_sequence_length - 1) 1 (fun _ _ => start_id)

/-- Variant of `Transformer.generateStep` in which the division
`last_logits / temperature` is guarded: every division performed by the step
shares the divisor `temperature`, so the step fails exactly where the plain
embedding would divide by zero.  The source contains no such guard; this
definition exists to state where the division-by-zero branch is reachable. -/
noncomputable def Transformer.generateStepChecked (cfg : TransformerConfig)
    (p : TransformerParams) (B : Nat) (temperature : ℝ) (mask_ids : List Nat)
    (log_p : Option (Nat → ℝ)) (sampler : Sampler) (step : Nat)
    (output_ids : Nat → Nat → Nat) : Except String (Nat → Nat → Nat) :=
  match Transformer.generateLogits cfg p B step log_p output_ids with
  | Except.error e => Except.error e
  | Except.ok lg =>
      if temperature = 0 then Except.error "division by zero"
      else
        Except.ok (fun b pos => if pos < step then output_ids b pos
          else sampler step (stepProbs cfg temperature mask_ids lg) b)

/-- The generation loop over `Transformer.generateStepChecked`. -/
noncomputable def Transformer.generateStepsChecked (cfg : TransformerConfig)
    (p : TransformerParams) (B : Nat) (temperature : ℝ) (mask_ids : List Nat)
    (log_p : Option (Nat → ℝ)) (sampler : Sampler) :
    Nat → Nat → (Nat → Nat → Nat) → Except String (Nat → Nat → Nat)
  | 0, _, output_ids => Except.ok output_ids
  | n + 1, step, output_ids =>
      match Transformer.generateStepChecked cfg p B temperature mask_ids log_p
          sampler step output_ids with
      | Except.error e => Except.error e
      | Except.ok next =>
          Transformer.generateStepsChecked cfg p B temperature mask_ids log_p
            sampler n (step + 1) next

/-- `Transformer.generate` with the guarded division. -/
noncomputable def Transformer.generateChecked (cfg : TransformerConfig)
    (p : TransformerParams) (batch_size max_target_sequence_length start_id : Nat)
    (temperature : ℝ) (mask_ids : List Nat) (log_p : Option (Nat → ℝ))
    (sampler : Sampler) : Except String (Nat → Nat → Nat) :=
  Transformer.generateStepsChecked cfg p batch_size temperature mask_ids log_p
    sampler (max_target_sequence_length - 1) 1 (fun _ _ => start_id)

/-- Concrete configuration: vocabulary 2, `dmodel = 1`, one head, feedforward
width 1, 4 positions. -/
def cfg0 : TransformerConfig :=
  { vocab_size := 2, dmodel := 1, nhead := 1, dim_feedforward := 1
    num_positions := 4 }

/-- All-zero linear map. -/
noncomputable def zeroLinear : LinearParams :=
  { weight := fun _ _ => 0, bias := fun _ => 0 }

/-- One decoder layer with zero projections and the default layer-norm affine
parameters. -/
noncomputable def zeroLayer : TransformerDecoderLayerParams :=
  { decoder_attention :=
      { linear_q := zeroLinear, linear_k := zeroLinear
        linear_v := zeroLinear, linear_o := zeroLinear }
    feedforward := { lin1 := zeroLinear, lin2 := zeroLinear }
    norm1 := { gamma := fun _ => 1, beta := fun _ => 0 }
    norm2 := { gamma := fun _ => 1, beta := fun _ => 0 } }

/-- Concrete all-zero model over `cfg0` with one decoder layer. -/
noncomputable def p0 : TransformerParams :=
  { embedding := fun _ _ => 0, decoder_layers := [zeroLayer]
    classifier := zeroLinear }

/-- A sampler that always returns id `1`: a legitimate outcome of
`torch.multinomial` whenever id `1` carries positive probability. -/
def badSampler : Sampler := fun _ _ _ => 1

/-- The sequence batch `generate` produces under `badSampler` from `cfg0`:
start id `0`, then `1` everywhere. -/
def cexOut : Nat → Nat → Nat := fun _ pos => if pos < 1 then 0 else 1

/-- The last-position logits the concrete run computes at step 1. -/
noncomputable def cexLg : Nat → Nat → ℝ :=
  (Transformer.generateLogits cfg0 p0 1 1 none (fun _ _ => 0)).toOption.getD
    (fun _ _ => 0)

end TransformerPy

namespace TransformerPy

/-- C6: for every `[batch, L, dmodel]` tensor with `dmodel` divisible by
`head_num`, `_reshape_from_batches` inverts `_reshape_to_batches` at every
in-range feature index: the split-into-heads reshape and its inverse are a
round trip. -/
theorem reshape_round_trip {α : Type} (H D : Nat) (hH : 0 < H) (hdvd : H ∣ D)
    (x : Nat → Nat → Nat → α) (b l d : Nat) (hd : d < D) :
    MultiHeadAttention.reshape_from_batches H (D / H)
      (MultiHeadAttention.reshape_to_batches H D x) b l d = x b l d := by
  obtain ⟨c, rfl⟩ := hdvd
  have hsub : H * c / H = c := Nat.mul_div_cancel_left c hH
  have hc : 0 < c := by
    rcases Nat.eq_zero_or_pos c with h0 | h0
    · subst h0; omega
    · exact h0
  have hq : d / c < H := (Nat.div_lt_iff_lt_mul hc).mpr (by omega)
  simp only [MultiHeadAttention.reshape_from_batches,
    MultiHeadAttention.reshape_to_batches, reshapeMergeLast, reshapeMergeFirst,
    permute0213, reshapeSplitFirst, reshapeSplitLast, hsub]
  have h1 : (b * H + d / c) / H = b := by
    rw [Nat.mul_comm b H, Nat.add_comm, Nat.add_mul_div_left _ _ hH,
      Nat.div_eq_of_lt hq, Nat.zero_add]
  have h2 : (b * H + d / c) % H = d / c := by
    rw [Nat.mul_comm b H, Nat.add_comm, Nat.add_mul_mod_self_left,
      Nat.mod_eq_of_lt hq]
  rw [h1, h2]
  have h3 : d / c * c + d % c = d := by
    rw [Nat.mul_comm, Nat.div_add_mod]
  rw [h3]

/-- C6 witness: the round trip at `head_num = 2`, `dmodel = 4`, on a concrete
integer tensor and index. -/
theorem reshape_round_trip_witness :
    0 < 2 ∧ (2 : Nat) ∣ 4 ∧ 3 < 4 ∧
      MultiHeadAttention.reshape_from_batches 2 (4 / 2)
        (MultiHeadAttention.reshape_to_batches 2 4
          (fun b l d => b * 100 + l * 10 + d)) 1 2 3 = 1 * 100 + 2 * 10 + 3 :=
  ⟨by decide, by decide, by decide,
    reshape_round_trip 2 4 (by decide) (by decide)
      (fun b l d => b * 100 + l * 10 + d) 1 2 3 (by decide)⟩

/-- C2: entries of `create_self_attention_mask` are in `{0, 1}`; the entry
`(b, i, j)` is `0` whenever `i ≥ sequence_length[b]` or `j ≥ sequence_length[b]`,
and additionally whenever `causal` and `j > i`; every other entry is `1`; and
the mask equals `v[b,i] * v[b,j] * causal[i,j]` with `v[b,p] = 1` iff
`p < sequence_length[b]`. -/
theorem create_self_attention_mask_correct (sl : Nat → Nat) (causal : Bool)
    (b i j : Nat) :
    (create_self_attention_mask sl causal b i j = 0
        ∨ create_self_attention_mask sl causal b i j = 1)
    ∧ (sl b ≤ i ∨ sl b ≤ j → create_self_attention_mask sl causal b i j = 0)
    ∧ (causal = true → i < j → create_self_attention_mask sl causal b i j = 0)
    ∧ (i < sl b → j < sl b → (causal = true → j ≤ i) →
        create_self_attention_mask sl causal b i j = 1)
    ∧ create_self_attention_mask sl causal b i j
        = (if i < sl b then (1 : ℝ) else 0) * ((if j < sl b then (1 : ℝ) else 0)
            * (if causal = true then (if j ≤ i then (1 : ℝ) else 0) else 1)) := by
  have hmask : create_self_attention_mask sl causal b i j
      = (if i < sl b then (1 : ℝ) else 0) * ((if j < sl b then (1 : ℝ) else 0)
          * (if causal = true then (if j ≤ i then (1 : ℝ) else 0) else 1)) := by
    cases causal <;>
      simp only [create_self_attention_mask, MultiHeadAttention.create_causal_mask] <;>
      split_ifs <;> first | exact False.elim (by assumption) | norm_num
  refine ⟨?_, ?_, ?_, ?_, hmask⟩
  · rw [hmask]; split_ifs <;> norm_num
  · intro h; rw [hmask]; rcases h with h | h <;> split_ifs <;>
      first | (exfalso; omega) | norm_num
  · intro hc hij; rw [hmask]; split_ifs <;>
      first | (exfalso; omega) | simp_all
  · intro h1 h2 h3; rw [hmask]; split_ifs <;>
      first | (exfalso; omega) | simp_all

/-- C2 witness: for `sequence_length = [2, 2, ...]`, causal masking, the entry
at `(b, i, j) = (0, 3, 1)` is `0` (query row past the valid length) and the
entry at `(0, 1, 0)` is `1` (both positions valid, key not after query). -/
theorem create_self_attention_mask_correct_witness :
    create_self_attention_mask (fun _ => 2) true 0 3 1 = 0
    ∧ create_self_attention_mask (fun _ => 2) true 0 1 0 = 1 :=
  ⟨(create_self_attention_mask_correct (fun _ => 2) true 0 3 1).2.1
      (Or.inl (by decide)),
    (create_self_attention_mask_correct (fun _ => 2) true 0 1 0).2.2.2.1
      (by decide) (by decide) (fun _ => by decide)⟩

/-- C8: constructing `MultiHeadAttention` succeeds iff `head_num` divides
`in_features`; in particular `(in_features, head_num) = (10, 3)` raises and
`(12, 3)` succeeds. -/
theorem mha_init_divisibility_guard :
    (∀ f h, 0 < h → ((MultiHeadAttention.init f h).isOk = true ↔ h ∣ f))
    ∧ (MultiHeadAttention.init 10 3).isOk = false
    ∧ (MultiHeadAttention.init 12 3).isOk = true := by
  refine ⟨fun f h hh => ?_, by decide, by decide⟩
  have hdvd : h ∣ f ↔ f % h = 0 := Nat.dvd_iff_mod_eq_zero
  unfold MultiHeadAttention.init
  split_ifs with hmod
  · constructor
    · intro habs; exact Bool.noConfusion habs
    · intro hd; exact absurd (hdvd.mp hd) hmod
  · rw [not_not] at hmod
    exact ⟨fun _ => hdvd.mpr hmod, fun _ => rfl⟩

/-- C8 witness: with `head_num = 3 > 0` and `in_features = 9`, construction
succeeds iff `3 ∣ 9`. -/
theorem mha_init_divisibility_guard_witness :
    0 < 3 ∧ ((MultiHeadAttention.init 9 3).isOk = true ↔ 3 ∣ 9) :=
  ⟨by decide, mha_init_divisibility_guard.1 9 3 (by decide)⟩

/-- C1 (code bug): with `batch = 2` examples and `head_num = 2`, the folded
tensors produced by `_reshape_to_batches` put example 0's head 1 at folded
slice `0 * 2 + 1 = 1` (first conjunct; `_reshape_alignments` inverts the same
example-major layout, second conjunct), but the mask replicated by
`mask.repeat(head_num, 1, 1)` gives folded slice 1 the mask of example
`1 % 2 = 1` — here `0` — instead of example 0's mask — here `1` (third and
fourth conjuncts).  Heads do not see the mask of their own example. -/
theorem mask_repeat_head_misalignment :
    (∀ (x : Nat → Nat → Nat → Nat) (l t : Nat),
        MultiHeadAttention.reshape_to_batches 2 2 x 1 l t = x 0 l (1 + t))
    ∧ (∀ (a : Tensor3) (l1 l2 : Nat),
        MultiHeadAttention.reshape_alignments 2 a 0 1 l1 l2 = a 1 l1 l2)
    ∧ repeatBatch 2 maskPair 1 0 0 = 0
    ∧ maskPair 0 0 0 = 1 := by
  refine ⟨fun x l t => rfl, fun a l1 l2 => rfl, ?_, ?_⟩ <;>
    norm_num [repeatBatch, maskPair]

/-- C3: in `ScaledDotProductAttention.forward` with a mask, a query row whose
mask entries are all `0` yields an exactly-zero attention row and an
exactly-zero output row; a query row with at least one mask entry `≠ 0` has
attention weights in `[0, 1]` whose row sum lies in `(0, 1]` and is within
`Lk * exp(-1e9 - s₀)` of `1` whenever `s₀` lower-bounds the raw scores of the
unmasked keys (the explicit form of "within floating tolerance"). -/
theorem sdpa_masked_rows (Lk dk : Nat) (q k v m : Tensor3) (b i : Nat) :
    ((∀ j, j < Lk → m b i j = 0) →
      (∀ j, j < Lk →
          (ScaledDotProductAttention.forward Lk dk q k v (some m)).2 b i j = 0)
      ∧ ∀ t, (ScaledDotProductAttention.forward Lk dk q k v (some m)).1 b i t = 0)
    ∧ ((∃ j, j < Lk ∧ m b i j ≠ 0) →
      (∀ j, j < Lk →
          0 ≤ (ScaledDotProductAttention.forward Lk dk q k v (some m)).2 b i j
          ∧ (ScaledDotProductAttention.forward Lk dk q k v (some m)).2 b i j ≤ 1)
      ∧ 0 < ∑ j ∈ Finset.range Lk,
          (ScaledDotProductAttention.forward Lk dk q k v (some m)).2 b i j
      ∧ (∑ j ∈ Finset.range Lk,
          (ScaledDotProductAttention.forward Lk dk q k v (some m)).2 b i j) ≤ 1
      ∧ ∀ s₀ : ℝ, (∀ j, j < Lk → m b i j ≠ 0 →
            s₀ ≤ ScaledDotProductAttention.scores dk q k b i j) →
          1 - (∑ j ∈ Finset.range Lk,
              (ScaledDotProductAttention.forward Lk dk q k v (some m)).2 b i j)
            ≤ Lk * Real.exp (negBillion - s₀)) := by
  classical
  set A := (ScaledDotProductAttention.forward Lk dk q k v (some m)).2 with hA
  set MS := masked_fill m negBillion (ScaledDotProductAttention.scores dk q k)
    with hMS
  set Z := ∑ t ∈ Finset.range Lk, Real.exp (MS b i t) with hZ
  have hattn : ∀ j, A b i j
      = if m b i j = 0 then 0 else Real.exp (MS b i j) / Z := fun j => rfl
  have hout : ∀ t, (ScaledDotProductAttention.forward Lk dk q k v (some m)).1 b i t
      = ∑ j ∈ Finset.range Lk, A b i j * v b j t := fun t => rfl
  constructor
  · intro hall
    have hAz : ∀ j, j < Lk → A b i j = 0 := fun j hj => by
      rw [hattn j, if_pos (hall j hj)]
    refine ⟨hAz, fun t => ?_⟩
    rw [hout t]
    exact Finset.sum_eq_zero fun j hj => by
      rw [hAz j (Finset.mem_range.mp hj), zero_mul]
  · rintro ⟨j₀, hj₀, hm₀⟩
    have hZpos : 0 < Z :=
      Finset.sum_pos (fun t _ => Real.exp_pos _) ⟨j₀, Finset.mem_range.mpr hj₀⟩
    have hle : ∀ j, j < Lk → Real.exp (MS b i j) ≤ Z := fun j hj =>
      Finset.single_le_sum (fun t _ => (Real.exp_pos (MS b i t)).le)
        (Finset.mem_range.mpr hj)
    have hbounds : ∀ j, j < Lk → 0 ≤ A b i j ∧ A b i j ≤ 1 := by
      intro j hj
      rw [hattn j]
      split_ifs
      · exact ⟨le_rfl, zero_le_one⟩
      · exact ⟨div_nonneg (Real.exp_pos _).le hZpos.le,
          (div_le_one hZpos).mpr (hle j hj)⟩
    have hone : ∑ j ∈ Finset.range Lk, Real.exp (MS b i j) / Z = 1 := by
      rw [← Finset.sum_div, ← hZ, div_self hZpos.ne']
    have hWle : (∑ j ∈ Finset.range Lk, A b i j) ≤ 1 := by
      calc ∑ j ∈ Finset.range Lk, A b i j
          ≤ ∑ j ∈ Finset.range Lk, Real.exp (MS b i j) / Z := by
            refine Finset.sum_le_sum fun j hj => ?_
            rw [hattn j]
            split_ifs
            · exact div_nonneg (Real.exp_pos _).le hZpos.le
            · exact le_rfl
        _ = 1 := hone
    have hA₀ : 0 < A b i j₀ := by
      rw [hattn j₀, if_neg hm₀]
      exact div_pos (Real.exp_pos _) hZpos
    have hWpos : 0 < ∑ j ∈ Finset.range Lk, A b i j :=
      lt_of_lt_of_le hA₀
        (Finset.single_le_sum (fun j hj => (hbounds j (Finset.mem_range.mp hj)).1)
          (Finset.mem_range.mpr hj₀))
    refine ⟨hbounds, hWpos, hWle, ?_⟩
    intro s₀ hs₀
    have hZge : Real.exp s₀ ≤ Z := by
      calc Real.exp s₀ ≤ Real.exp (MS b i j₀) := by
            apply Real.exp_le_exp.mpr
            simp only [hMS, masked_fill]
            rw [if_neg hm₀]
            exact hs₀ j₀ hj₀ hm₀
        _ ≤ Z := hle j₀ hj₀
    have hterm : ∀ j, j < Lk →
        Real.exp (MS b i j) / Z - A b i j ≤ Real.exp (negBillion - s₀) := by
      intro j hj
      rw [hattn j]
      split_ifs with hm
      · have hMSj : MS b i j = negBillion := by
          simp only [hMS, masked_fill]
          rw [if_pos hm]
        rw [hMSj, sub_zero, Real.exp_sub]
        gcongr
      · rw [sub_self]
        positivity
    have h1W : 1 - (∑ j ∈ Finset.range Lk, A b i j)
        = ∑ j ∈ Finset.range Lk, (Real.exp (MS b i j) / Z - A b i j) := by
      rw [Finset.sum_sub_distrib, hone]
    rw [h1W]
    calc ∑ j ∈ Finset.range Lk, (Real.exp (MS b i j) / Z - A b i j)
        ≤ ∑ _j ∈ Finset.range Lk, Real.exp (negBillion - s₀) :=
          Finset.sum_le_sum fun j hj => hterm j (Finset.mem_range.mp hj)
      _ = Lk * Real.exp (negBillion - s₀) := by
          rw [Finset.sum_const, Finset.card_range, nsmul_eq_mul]

/-- C3 witness: with `Lk = 2`, `dk = 1`, zero query/key/value and the mask row
`[1, 0]`, the attention row sum is positive and within `2 * exp(-1e9 - 0)`
of `1`. -/
theorem sdpa_masked_rows_witness :
    0 < (∑ j ∈ Finset.range 2, (ScaledDotProductAttention.forward 2 1
        (fun _ _ _ => 0) (fun _ _ _ => 0) (fun _ _ _ => 0)
        (some (fun _ _ j => if j = 0 then 1 else 0))).2 0 0 j)
    ∧ 1 - (∑ j ∈ Finset.range 2, (ScaledDotProductAttention.forward 2 1
        (fun _ _ _ => 0) (fun _ _ _ => 0) (fun _ _ _ => 0)
        (some (fun _ _ j => if j = 0 then 1 else 0))).2 0 0 j)
      ≤ 2 * Real.exp (negBillion - 0) := by
  have h := (sdpa_masked_rows 2 1 (fun _ _ _ => 0) (fun _ _ _ => 0)
      (fun _ _ _ => 0) (fun _ _ j => if j = 0 then 1 else 0) 0 0).2
    ⟨0, by norm_num, by norm_num⟩
  refine ⟨h.2.1, ?_⟩
  have hb := h.2.2.2 0 (by
    intro j hj hm
    simp [ScaledDotProductAttention.scores])
  simpa using hb

/-- C4: at every step `t` of the generation loop, the logits used for
sampling, before forbidden-id masking and temperature scaling
(`Transformer.generateLogits`, the value bound in `Transformer.generateStep`),
equal the logits of the teacher-forced `Transformer.forward` at the last
position `t - 1`, applied to the same `t`-token prefix with every entry of
`target_sequence_length` equal to `t` and the same conditioning signal. -/
theorem generate_logits_consistent_with_forward (cfg : TransformerConfig)
    (p : TransformerParams) (B t : Nat) (output_ids : Nat → Nat → Nat)
    (log_p : Option (Nat → ℝ)) :
    Transformer.generateLogits cfg p B t log_p output_ids
      = (Transformer.forward cfg p B t output_ids (fun _ => t) log_p).map
          (fun out => fun b => out.logits b (t - 1)) := by
  unfold Transformer.generateLogits Transformer.forward
  cases h : Transformer.encode_output_ids cfg p t output_ids <;>
    simp [Except.map]

/-- C9: `SinusoidalPositionalEmbedding.forward` succeeds exactly when the
sequence length is at most `num_positions`, and for any two inputs of the
same shape the outputs add the identical, input-independent encoding matrix:
the layer is deterministic in the `(L, dmodel)` shape. -/
theorem positional_forward_error_iff (dmodel num_positions L : Nat)
    (x y : Tensor3) :
    ((SinusoidalPositionalEmbedding.forward dmodel num_positions L x).isOk = true
        ↔ L ≤ num_positions)
    ∧ (L ≤ num_positions →
        SinusoidalPositionalEmbedding.forward dmodel num_positions L x
          = Except.ok (fun b pos i =>
              x b pos i + SinusoidalPositionalEmbedding.encodings dmodel pos i)
        ∧ SinusoidalPositionalEmbedding.forward dmodel num_positions L y
          = Except.ok (fun b pos i =>
              y b pos i + SinusoidalPositionalEmbedding.encodings dmodel pos i)) := by
  unfold SinusoidalPositionalEmbedding.forward
  split_ifs with hgt
  · exact ⟨⟨fun habs => Bool.noConfusion habs, fun hle => absurd hle (by omega)⟩,
      fun hle => absurd hle (by omega)⟩
  · exact ⟨⟨fun _ => by omega, fun _ => rfl⟩, fun _ => ⟨rfl, rfl⟩⟩

/-- C9 witness: at `dmodel = 2`, `num_positions = 4`, `L = 1` the layer
succeeds and adds the encoding matrix to the zero input. -/
theorem positional_forward_error_iff_witness :
    (1 : Nat) ≤ 4 ∧
      SinusoidalPositionalEmbedding.forward 2 4 1 (fun _ _ _ => 0)
        = Except.ok (fun b pos i => (fun _ _ _ => (0 : ℝ)) b pos i
            + SinusoidalPositionalEmbedding.encodings 2 pos i) :=
  ⟨by decide,
    ((positional_forward_error_iff 2 4 1 (fun _ _ _ => 0) (fun _ _ _ => 0)).2
      (by decide)).1⟩

/-- C7 (amended): for `L ≤ num_positions` the layer adds a deterministic
position-by-feature matrix, broadcast across the batch; its entry at
position `pos`, feature `i` is a sine (both bands use `torch.sin`, no
cosine) of `pos` times a frequency `10000 ^ (-(2k)/dmodel)` for the first
`⌈dmodel/2⌉` features (`k = i`) and `10000 ^ (-(2k+1)/dmodel)` for the
remaining features (`k = i - ⌈dmodel/2⌉`): two concatenated half-blocks
with geometrically decaying frequencies, not interleaved sine/cosine pairs. -/
theorem positional_encoding_formula (dmodel num_positions L : Nat) (x : Tensor3)
    (hle : L ≤ num_positions) :
    SinusoidalPositionalEmbedding.forward dmodel num_positions L x
      = Except.ok (fun b pos i =>
          x b pos i + SinusoidalPositionalEmbedding.encodings dmodel pos i)
    ∧ (∀ pos i, i < (dmodel + 1) / 2 →
        SinusoidalPositionalEmbedding.encodings dmodel pos i
          = Real.sin ((pos : ℝ)
              * (10000 : ℝ) ^ (-((2 * i : Nat) : ℝ) / (dmodel : ℝ))))
    ∧ (∀ pos i, (dmodel + 1) / 2 ≤ i →
        SinusoidalPositionalEmbedding.encodings dmodel pos i
          = Real.sin ((pos : ℝ) * (10000 : ℝ)
              ^ (-((2 * (i - (dmodel + 1) / 2) + 1 : Nat) : ℝ) / (dmodel : ℝ)))) := by
  refine ⟨?_, ?_, ?_⟩
  · unfold SinusoidalPositionalEmbedding.forward
    rw [if_neg (by omega)]
  · intro pos i hi
    simp only [SinusoidalPositionalEmbedding.encodings]
    rw [if_pos hi, neg_div, Real.rpow_neg (by norm_num : (0 : ℝ) ≤ 10000),
      div_eq_mul_inv]
  · intro pos i hi
    simp only [SinusoidalPositionalEmbedding.encodings]
    rw [if_neg (by omega), neg_div, Real.rpow_neg (by norm_num : (0 : ℝ) ≤ 10000),
      div_eq_mul_inv]

/-- C7 witness: at `dmodel = 2`, `num_positions = 4`, `L = 1` the amended
description holds. -/
theorem positional_encoding_formula_witness :
    (1 : Nat) ≤ 4 ∧
      (SinusoidalPositionalEmbedding.forward 2 4 1 (fun _ _ _ => 0)
        = Except.ok (fun b pos i => (fun _ _ _ => (0 : ℝ)) b pos i
            + SinusoidalPositionalEmbedding.encodings 2 pos i)
      ∧ (∀ pos i, i < (2 + 1) / 2 →
          SinusoidalPositionalEmbedding.encodings 2 pos i
            = Real.sin ((pos : ℝ)
                * (10000 : ℝ) ^ (-((2 * i : Nat) : ℝ) / (2 : ℝ))))
      ∧ (∀ pos i, (2 + 1) / 2 ≤ i →
          SinusoidalPositionalEmbedding.encodings 2 pos i
            = Real.sin ((pos : ℝ) * (10000 : ℝ)
                ^ (-((2 * (i - (2 + 1) / 2) + 1 : Nat) : ℝ) / (2 : ℝ))))) := by
  refine ⟨by decide, ?_⟩
  have h := positional_encoding_formula 2 4 1 (fun _ _ _ => 0) (by decide)
  exact_mod_cast h

/-- C7 counterexample: the claim's alternating sine/cosine form fails on the
code.  At `dmodel = 2`, position `0`, feature `1`, the code's additive
encoding is `sin 0 = 0` while the alternating formulation demands
`cos 0 = 1`. -/
theorem positional_encoding_not_alternating :
    SinusoidalPositionalEmbedding.forward 2 4 1 (fun _ _ _ => 0)
      = Except.ok (fun b pos i => (fun _ _ _ => (0 : ℝ)) b pos i
          + SinusoidalPositionalEmbedding.encodings 2 pos i)
    ∧ SinusoidalPositionalEmbedding.encodings 2 0 1 = 0
    ∧ canonicalSinusoidalEncoding 2 0 1 = 1
    ∧ SinusoidalPositionalEmbedding.encodings 2 0 1
        ≠ canonicalSinusoidalEncoding 2 0 1 := by
  have h0 : SinusoidalPositionalEmbedding.encodings 2 0 1 = 0 := by
    simp [SinusoidalPositionalEmbedding.encodings]
  have h1 : canonicalSinusoidalEncoding 2 0 1 = 1 := by
    simp [canonicalSinusoidalEncoding]
  refine ⟨?_, h0, h1, ?_⟩
  · unfold SinusoidalPositionalEmbedding.forward
    rw [if_neg (by omega)]
  · rw [h0, h1]
    norm_num

/-- Helper: one generation step's logits computation succeeds whenever the
current length is within the positional-embedding range. -/
theorem generateLogits_ok (cfg : TransformerConfig) (p : TransformerParams)
    (B step : Nat) (log_p : Option (Nat → ℝ)) (ids : Nat → Nat → Nat)
    (h : step ≤ cfg.num_positions) :
    ∃ lg, Transformer.generateLogits cfg p B step log_p ids = Except.ok lg := by
  unfold Transformer.generateLogits Transformer.encode_output_ids
    SinusoidalPositionalEmbedding.forward
  rw [if_neg (by omega)]
  exact ⟨_, rfl⟩

/-- Helper: full specification of the generation loop.  Starting at length
`step` with ids `ids`, if every executed step stays within the
positional-embedding range then the loop succeeds, keeps every position
below `step` unchanged, and fills every later position with the sampler's
choice on the step's masked temperature softmax. -/
theorem generateSteps_spec (cfg : TransformerConfig) (p : TransformerParams)
    (B : Nat) (temperature : ℝ) (mask_ids : List Nat) (log_p : Option (Nat → ℝ))
    (sampler : Sampler) :
    ∀ (n step : Nat) (ids : Nat → Nat → Nat),
      step + n ≤ cfg.num_positions + 1 →
      ∃ out,
        Transformer.generateSteps cfg p B temperature mask_ids log_p sampler
            n step ids = Except.ok out
        ∧ (∀ b pos, pos < step → out b pos = ids b pos)
        ∧ (∀ b pos, step ≤ pos → pos < step + n →
            ∃ lg, out b pos = sampler pos (stepProbs cfg temperature mask_ids lg) b) := by
  intro n
  induction n with
  | zero =>
      intro step ids _
      exact ⟨ids, rfl, fun b pos _ => rfl,
        fun b pos h1 h2 => absurd h2 (by omega)⟩
  | succ n ih =>
      intro step ids h
      obtain ⟨lg, hlg⟩ := generateLogits_ok cfg p B step log_p ids (by omega)
      obtain ⟨out, hout, hkeep, hnew⟩ := ih (step + 1)
        (fun b pos => if pos < step then ids b pos
          else sampler step (stepProbs cfg temperature mask_ids lg) b)
        (by omega)
      refine ⟨out, ?_, ?_, ?_⟩
      · simp only [Transformer.generateSteps, Transformer.generateStep, hlg]
        exact hout
      · intro b pos hpos
        rw [hkeep b pos (by omega)]
        rw [if_pos hpos]
      · intro b pos h1 h2
        rcases Nat.eq_or_lt_of_le h1 with heq | hlt
        · refine ⟨lg, ?_⟩
          rw [hkeep b pos (by omega), if_neg (by omega), heq]
        · exact hnew b pos (by omega) (by omega)

/-- Helper: every vocabulary entry of the temperature softmax is strictly
positive (the sentinel `-1e9` makes forbidden probabilities tiny, never
zero), provided the vocabulary is nonempty. -/
theorem stepProbs_pos (cfg : TransformerConfig) (temperature : ℝ)
    (mask_ids : List Nat) (lg : Nat → Nat → ℝ) (b o : Nat)
    (hv : 0 < cfg.vocab_size) :
    0 < stepProbs cfg temperature mask_ids lg b o := by
  unfold stepProbs
  exact div_pos (Real.exp_pos _)
    (Finset.sum_pos (fun t _ => Real.exp_pos _) ⟨0, Finset.mem_range.mpr hv⟩)

/-- C5 (amended): whenever every executed step fits the positional range,
`generate` succeeds with a `[B, T]` id tensor whose first column is all
`start_id`; every later position holds the sampler's choice on that step's
masked temperature softmax; and in that softmax every forbidden id's
probability is exp-small — at most `exp((-1e9 - ℓ)/temperature)` for the
pre-mask logit `ℓ` of any non-forbidden vocabulary id — but not zero, so
exact exclusion of forbidden ids is not guaranteed. -/
theorem generate_shape_and_masking (cfg : TransformerConfig)
    (p : TransformerParams) (B T start_id : Nat) (temperature : ℝ)
    (mask_ids : List Nat) (log_p : Option (Nat → ℝ)) (sampler : Sampler)
    (hT : T ≤ cfg.num_positions + 1) :
    ∃ out,
      Transformer.generate cfg p B T start_id temperature mask_ids log_p sampler
          = Except.ok out
      ∧ (∀ b, out b 0 = start_id)
      ∧ (∀ b pos, 1 ≤ pos → pos < T →
          ∃ lg, out b pos = sampler pos (stepProbs cfg temperature mask_ids lg) b)
      ∧ (∀ (lg : Nat → Nat → ℝ) (b f g : Nat), f ∈ mask_ids →
          g < cfg.vocab_size → g ∉ mask_ids →
          stepProbs cfg temperature mask_ids lg b f
            ≤ Real.exp ((negBillion - lg b g) / temperature)) := by
  obtain ⟨out, hrun, hkeep, hnew⟩ := generateSteps_spec cfg p B temperature
    mask_ids log_p sampler (T - 1) 1 (fun _ _ => start_id) (by omega)
  refine ⟨out, hrun, fun b => hkeep b 0 (by omega), ?_, ?_⟩
  · intro b pos h1 h2
    exact hnew b pos h1 (by omega)
  · intro lg b f g hf hg hgn
    unfold stepProbs
    simp only
    rw [if_pos hf]
    have hZ : Real.exp (lg b g / temperature)
        ≤ ∑ t ∈ Finset.range cfg.vocab_size,
            Real.exp ((if t ∈ mask_ids then negBillion else lg b t) / temperature) := by
      have hs := Finset.single_le_sum
        (f := fun t => Real.exp ((if t ∈ mask_ids then negBillion else lg b t)
          / temperature))
        (fun t _ => (Real.exp_pos _).le) (Finset.mem_range.mpr hg)
      simp only at hs
      rwa [if_neg hgn] at hs
    calc Real.exp (negBillion / temperature)
          / ∑ t ∈ Finset.range cfg.vocab_size,
              Real.exp ((if t ∈ mask_ids then negBillion else lg b t) / temperature)
        ≤ Real.exp (negBillion / temperature) / Real.exp (lg b g / temperature) := by
          gcongr
      _ = Real.exp ((negBillion - lg b g) / temperature) := by
          rw [sub_div, Real.exp_sub]

/-- C5 witness: the amended statement applied to the concrete zero model,
`B = 1`, `T = 2`, `start_id = 0`, temperature `1`, forbidden set `[1]`. -/
theorem generate_shape_and_masking_witness :
    (2 : Nat) ≤ cfg0.num_positions + 1 ∧
      ∃ out, Transformer.generate cfg0 p0 1 2 0 1 [1] none badSampler
          = Except.ok out ∧ ∀ b, out b 0 = 0 := by
  obtain ⟨out, h1, h2, -, -⟩ := generate_shape_and_masking cfg0 p0 1 2 0 1 [1]
    none badSampler (by decide)
  exact ⟨by decide, out, h1, h2⟩

/-- C5 counterexample: the unamended claim — every sampled id lies outside
the forbidden set — is false.  With the concrete zero model, forbidden set
`[1]` and the sampler that picks id `1`, `generate` returns a sequence whose
position-1 entry is the forbidden id `1`; and this sampler is a legitimate
`torch.multinomial` outcome because the masked softmax assigns id `1`
strictly positive probability (the step's probability tensor is
`stepProbs cfg0 1 [1] cexLg`, with `cexLg` the logits the run computes). -/
theorem generate_forbidden_id_sampleable :
    Transformer.generate cfg0 p0 1 2 0 1 [1] none badSampler = Except.ok cexOut
    ∧ cexOut 0 1 = 1
    ∧ (1 ∈ ([1] : List Nat))
    ∧ Transformer.generateLogits cfg0 p0 1 1 none (fun _ _ => 0)
        = Except.ok cexLg
    ∧ 0 < stepProbs cfg0 1 [1] cexLg 0 1 := by
  obtain ⟨lg, hlg⟩ := generateLogits_ok cfg0 p0 1 1 none (fun _ _ => 0)
    (by decide)
  have hlg' : Transformer.generateLogits cfg0 p0 1 1 none (fun _ _ => 0)
      = Except.ok cexLg := by
    rw [hlg]
    simp only [cexLg, hlg, Except.toOption, Option.getD]
  refine ⟨?_, rfl, by decide, hlg', stepProbs_pos cfg0 1 [1] cexLg 0 1 (by decide)⟩
  unfold Transformer.generate
  simp only [Transformer.generateSteps, Transformer.generateStep, hlg']
  rfl

/-- C10: the generation loop divides the final-position logits by
`temperature` with no validation.  First conjunct: when `temperature ≠ 0`
the division-guarded loop agrees with the plain embedding, so the
division-by-zero branch is unreachable at every step.  Second conjunct: when
`temperature = 0` and at least one step executes, the guarded loop reaches
the division and fails — no check inside `generate` makes `temperature = 0`
unreachable.  Third conjunct: the plain `generate` itself succeeds even at
`temperature = 0`, confirming it performs no validation of the argument. -/
theorem generate_temperature_unguarded (cfg : TransformerConfig)
    (p : TransformerParams) (B T start_id : Nat) (temperature : ℝ)
    (mask_ids : List Nat) (log_p : Option (Nat → ℝ)) (sampler : Sampler) :
    (temperature ≠ 0 →
      Transformer.generateChecked cfg p B T start_id temperature mask_ids
          log_p sampler
        = Transformer.generate cfg p B T start_id temperature mask_ids
            log_p sampler)
    ∧ (temperature = 0 → 2 ≤ T → 1 ≤ cfg.num_positions →
      Transformer.generateChecked cfg p B T start_id temperature mask_ids
          log_p sampler
        = Except.error "division by zero")
    ∧ (temperature = 0 → T ≤ cfg.num_positions + 1 →
      ∃ out, Transformer.generate cfg p B T start_id temperature mask_ids
          log_p sampler = Except.ok out) := by
  refine ⟨?_, ?_, ?_⟩
  · intro ht
    have key : ∀ (n step : Nat) (ids : Nat → Nat → Nat),
        Transformer.generateStepsChecked cfg p B temperature mask_ids log_p
            sampler n step ids
          = Transformer.generateSteps cfg p B temperature mask_ids log_p
              sampler n step ids := by
      intro n
      induction n with
      | zero => intro step ids; rfl
      | succ n ih =>
          intro step ids
          have hstep : Transformer.generateStepChecked cfg p B temperature
              mask_ids log_p sampler step ids
            = Transformer.generateStep cfg p B temperature mask_ids log_p
                sampler step ids := by
            unfold Transformer.generateStepChecked Transformer.generateStep
            cases Transformer.generateLogits cfg p B step log_p ids with
            | error e => rfl
            | ok lg => simp [ht]
          simp only [Transformer.generateStepsChecked, Transformer.generateSteps,
            hstep]
          cases Transformer.generateStep cfg p B temperature mask_ids log_p
              sampler step ids with
          | error e => rfl
          | ok next => exact ih (step + 1) next
    exact key (T - 1) 1 _
  · intro ht hT hnp
    subst ht
    obtain ⟨n, hn⟩ : ∃ n, T - 1 = n + 1 := ⟨T - 2, by omega⟩
    obtain ⟨lg, hlg⟩ := generateLogits_ok cfg p B 1 log_p (fun _ _ => start_id)
      (by omega)
    unfold Transformer.generateChecked
    rw [hn]
    simp [Transformer.generateStepsChecked, Transformer.generateStepChecked, hlg]
  · intro _ hT
    obtain ⟨out, hrun, -, -⟩ := generateSteps_spec cfg p B temperature mask_ids
      log_p sampler (T - 1) 1 (fun _ _ => start_id) (by omega)
    exact ⟨out, hrun⟩

/-- C10 witness: at `temperature = 1` the guarded and plain runs agree on the
concrete model, and at `temperature = 0` with two requested tokens the
guarded run fails with the division-by-zero error. -/
theorem generate_temperature_unguarded_witness :
    ((1 : ℝ) ≠ 0 ∧
      Transformer.generateChecked cfg0 p0 1 2 0 1 [1] none badSampler
        = Transformer.generate cfg0 p0 1 2 0 1 [1] none badSampler)
    ∧ ((0 : ℝ) = 0 ∧
      Transformer.generateChecked cfg0 p0 1 2 0 0 [1] none badSampler
        = Except.error "division by zero") :=
  ⟨⟨by norm_num,
      (generate_temperature_unguarded cfg0 p0 1 2 0 1 [1] none badSampler).1
        (by norm_num)⟩,
    ⟨rfl,
      (generate_temperature_unguarded cfg0 p0 1 2 0 0 [1] none badSampler).2.1
        rfl (by decide) (by decide)⟩⟩

end TransformerPy
